import Mathlib

/-!
Verification development for the `FortiShield/autogen` sources:
`autogen/cache/cache_factory.py` and `autogen/agentchat/contrib/web_surfer.py`.

The Python data and control flow are shallowly embedded as executable Lean
definitions; the theorems at the end of the file settle the specification
claims against those definitions.
-/

namespace Autogen

/-! ## Cache factory (`autogen/cache/cache_factory.py`)

`CacheFactory.cache_factory(seed, redis_url, cache_path_root, cosmosdb_config)`
tries Redis, then Cosmos DB, then falls back to disk.  Import failures of the
optional client libraries are modelled by the two Boolean availability flags;
in Python they surface as `ImportError` caught inside each branch.  The
returned trace records, in order, which backend branches were entered (a
branch is entered when its `try` block starts; the branch constructs its
cache exactly when its library is available, since construction is the
`return`). -/

/-- A `CosmosDBConfig` is a `TypedDict` with `total=False`: every key is
optional.  The three string keys checked by the factory are modelled as
`Option String` (presence of the key); presence of the remaining keys
(`cache_seed`, `client`) is collapsed into `hasOtherKeys`, which only matters
for the dict's truthiness. -/
structure CosmosDBConfig where
  connection_string : Option String
  database_id : Option String
  container_id : Option String
  hasOtherKeys : Bool
deriving DecidableEq, Repr

/-- Python truthiness of the config dict: non-empty. -/
def CosmosDBConfig.truthy (c : CosmosDBConfig) : Bool :=
  c.connection_string.isSome || c.database_id.isSome || c.container_id.isSome || c.hasOtherKeys

/-- `all(key in cosmosdb_config for key in ["connection_string", "database_id", "container_id"])`. -/
def CosmosDBConfig.complete (c : CosmosDBConfig) : Bool :=
  c.connection_string.isSome && c.database_id.isSome && c.container_id.isSome

/-- The concrete cache instance the factory returns. -/
inductive CacheHandle where
  | redis (seed : String) (url : String)
  | cosmos (seed : String) (cfg : CosmosDBConfig)
  | disk (path : String)
deriving DecidableEq, Repr

/-- Python truthiness of `redis_url` in `if redis_url:`: a present, non-empty
string. -/
def redisUrlTruthy : Option String → Bool
  | none => false
  | some s => !(s = "")

/-- The Cosmos-then-disk tail of the factory: the code reached when the Redis
branch was not taken or fell through on `ImportError`. -/
def cacheFactoryCosmosStage (seed : String) (cache_path_root : String)
    (cosmosdb_config : Option CosmosDBConfig) (cosmosAvailable : Bool) :
    CacheHandle × List String :=
  match cosmosdb_config with
  | some c =>
    if c.truthy && c.complete then
      if cosmosAvailable then
        (CacheHandle.cosmos seed c, ["cosmos"])
      else
        (CacheHandle.disk ("./" ++ cache_path_root ++ "/" ++ seed), ["cosmos", "disk"])
    else
      (CacheHandle.disk ("./" ++ cache_path_root ++ "/" ++ seed), ["disk"])
  | none =>
    (CacheHandle.disk ("./" ++ cache_path_root ++ "/" ++ seed), ["disk"])

/-- `CacheFactory.cache_factory`.  `redisAvailable` and `cosmosAvailable`
stand for the importability of the optional client libraries. -/
def cache_factory (seed : String) (redis_url : Option String)
    (cache_path_root : String) (cosmosdb_config : Option CosmosDBConfig)
    (redisAvailable cosmosAvailable : Bool) : CacheHandle × List String :=
  if redisUrlTruthy redis_url then
    if redisAvailable then
      (CacheHandle.redis seed (redis_url.getD ""), ["redis"])
    else
      let rest := cacheFactoryCosmosStage seed cache_path_root cosmosdb_config cosmosAvailable
      (rest.1, "redis" :: rest.2)
  else
    cacheFactoryCosmosStage seed cache_path_root cosmosdb_config cosmosAvailable

/-- A concrete complete Cosmos config used to instantiate theorems. -/
def sampleCosmosConfig : CosmosDBConfig :=
  { connection_string := some "cs", database_id := some "db",
    container_id := some "cid", hasOtherKeys := false }

/-! ## Summarizer client selection (`WebSurferAgent._create_summarizer_client`) -/

/-- One entry of a `config_list`; only its `"model"` key matters to the
filter. -/
structure ConfigEntry where
  model : String
  payload : String
deriving DecidableEq, Repr

/-- An `llm_config` dict; the `config_list` key is optional, every other key
is collapsed into `rest`. -/
structure LLMConfig where
  config_list : Option (List ConfigEntry)
  rest : String
deriving DecidableEq, Repr

/-- Modelled from the spec: `filter_config` from `autogen.oai.openai_utils`
(not under `src/`); per the spec it filters a configuration list to a
preferred-model allow-list, keeping the entries whose model is allowed. -/
def filter_config (config_list : List ConfigEntry) (allowedModels : List String) :
    List ConfigEntry :=
  config_list.filter (fun e => allowedModels.contains e.model)

/-- The allow-list hard-coded in `_create_summarizer_client`. -/
def preferredSummarizerModels : List String :=
  ["gpt-3.5-turbo-1106", "gpt-3.5-turbo-16k-0613", "gpt-3.5-turbo-16k"]

/-- The Python value space of `llm_config` / `summarizer_llm_config`:
`None`, `False`, or a dict. -/
inductive SummCfg where
  | none
  | disabled
  | config (c : LLMConfig)
deriving DecidableEq, Repr

/-- Outcome of `_create_summarizer_client`: the resolved
`self.summarizer_llm_config`, whether the preferred-model warning was logged,
and the `self.summarization_client` construction — `Except.error` models the
`TypeError` Python raises for `OpenAIWrapper(**None)`, `.ok none` models a
disabled client, `.ok (some c)` a wrapper built from config `c`. -/
structure SummarizerResult where
  cfg : SummCfg
  warned : Bool
  client : Except String (Option LLMConfig)
deriving Repr

/-- `WebSurferAgent._create_summarizer_client`. -/
def createSummarizerClient (summarizer_llm_config llm_config : SummCfg) :
    SummarizerResult :=
  let resolved : SummCfg × Bool :=
    match summarizer_llm_config with
    | SummCfg.none =>
      match llm_config with
      | SummCfg.none => (SummCfg.none, false)
      | SummCfg.disabled => (SummCfg.disabled, false)
      | SummCfg.config c =>
        match c.config_list with
        | Option.none => (SummCfg.config c, false)
        | Option.some lst =>
          let preferred := filter_config lst preferredSummarizerModels
          if preferred.length = 0 then
            (SummCfg.config c, true)
          else
            (SummCfg.config { c with config_list := some preferred }, false)
    | s => (s, false)
  let client : Except String (Option LLMConfig) :=
    match resolved.1 with
    | SummCfg.disabled => Except.ok Option.none
    | SummCfg.none =>
      Except.error "TypeError: argument after double-star must be a mapping, not NoneType"
    | SummCfg.config c => Except.ok (Option.some c)
  { cfg := resolved.1, warned := resolved.2, client := client }

/-! ## Browser state header (`_browser_state` inside `_register_functions`)

`SimpleTextBrowser` itself lives outside this repository (spec §1 treats the
browse session as an external collaborator); the header routine only reads
the fields modelled below.  Timestamps are integer seconds, so Python's
`round(time.time() - ts)` is the plain difference `now - ts`. -/

structure BrowserState where
  address : String
  page_title : Option String
  viewport_current_page : Nat
  viewport_pages : List String
  history : List (String × Int)
  viewport : String
  page_content : String
deriving Repr

/-- The body of `for i in range(len(self.browser.history)-2, -1, -1)`:
check index `i`, then `i - 1`, …, down to `0`, returning the first
timestamp whose recorded address equals `address`. -/
def scanHistoryFrom (history : List (String × Int)) (address : String) :
    Nat → Option Int
  | 0 =>
    match history.get? 0 with
    | some e => if e.1 = address then some e.2 else none
    | none => none
  | i + 1 =>
    match history.get? (i + 1) with
    | some e =>
      if e.1 = address then some e.2 else scanHistoryFrom history address i
    | none => scanHistoryFrom history address i

/-- The backward history scan of `_browser_state`: starts at the
second-to-last entry (`len(history) - 2`); the loop body never runs when the
history has fewer than two entries. -/
def findPrevVisit (history : List (String × Int)) (address : String) : Option Int :=
  if history.length < 2 then none
  else scanHistoryFrom history address (history.length - 2)

/-- `_browser_state()` — returns the `(header, viewport)` pair. -/
def browserState (b : BrowserState) (now : Int) : String × String :=
  let header := "Address: " ++ b.address ++ "\n"
  let header :=
    match b.page_title with
    | some t => header ++ "Title: " ++ t ++ "\n"
    | none => header
  let header :=
    match findPrevVisit b.history b.address with
    | some ts =>
      header ++ "You previously visited this page " ++ toString (now - ts)
        ++ " seconds ago.\n"
    | none => header
  let header :=
    header ++ "Viewport position: Showing page "
      ++ toString (b.viewport_current_page + 1) ++ " of "
      ++ toString b.viewport_pages.length ++ ".\n"
  (header, b.viewport)

/-! ## Python string helpers used by the tool handlers -/

/-- Python `str` whitespace for `strip()` (ASCII part). -/
def isPyWhitespace (c : Char) : Bool :=
  c = ' ' || c = '\t' || c = '\n' || c = '\r' || c = '\x0b' || c = '\x0c'

/-- Python `s.strip()`. -/
def pyStrip (s : String) : String :=
  String.mk ((s.data.dropWhile isPyWhitespace).reverse.dropWhile isPyWhitespace).reverse

/-- The separator every tool reply places between header and body. -/
def replySeparator : String := "\n=======================\n"

/-! ## First markdown link extraction (`_navigational_search`)

`re.search(r"\[.*?\]\((http.*?)\)", content)` with Python semantics:
leftmost match wins, `.` does not match `\n`, lazy quantifiers take the
shortest continuation that lets the rest of the pattern match, and
backtracking extends them when the continuation fails. -/

/-- Lazy `(http.*?)\)` after the literal `(http` has been consumed: take
characters up to the first `')'`, failing on `'\n'` or end of input. -/
def takeUrl : List Char → Option String
  | [] => none
  | c :: rest =>
    if c = ')' then some ""
    else if c = '\n' then none
    else (takeUrl rest).map (fun u => String.mk [c] ++ u)

/-- The literal `\((http` continuation followed by the lazy url; the group
captures `http` plus the lazily taken tail. -/
def tryParen : List Char → Option String
  | '(' :: 'h' :: 't' :: 't' :: 'p' :: rest => (takeUrl rest).map (fun u => "http" ++ u)
  | _ => none

/-- Lazy `.*?\]` scanning after the opening `'['`: at each `']'` try the
parenthesis continuation, on failure extend the lazy run past it; `'\n'`
kills this start position. -/
def tryBracket : List Char → Option String
  | [] => none
  | c :: rest =>
    if c = '\n' then none
    else if c = ']' then
      match tryParen rest with
      | some link => some link
      | none => tryBracket rest
    else tryBracket rest

/-- Leftmost-match search: try each start position in order; a match must
start with `'['`. -/
def firstMarkdownLinkAux : List Char → Option String
  | [] => none
  | c :: rest =>
    if c = '[' then
      match tryBracket rest with
      | some link => some link
      | none => firstMarkdownLinkAux rest
    else firstMarkdownLinkAux rest

/-- `re.search(r"\[.*?\]\((http.*?)\)", s)`, group 1. -/
def firstMarkdownLink (s : String) : Option String :=
  firstMarkdownLinkAux s.data

/-! ## Tool handlers

The browse session's `visit_page` is external; the handlers are parametrised
over a transition `visit : BrowserState → String → BrowserState`.  Each
handler additionally returns the list of addresses it asked the session to
visit, in order, so that navigation effects are part of the model's output. -/

/-- `_navigational_search(query)`. -/
def navigationalSearch (visit : BrowserState → String → BrowserState)
    (b : BrowserState) (now : Int) (query : String) :
    BrowserState × String × List String :=
  let searchAddress := "bing: " ++ query
  let b1 := visit b searchAddress
  let (b2, visited) :=
    match firstMarkdownLink b1.page_content with
    | some link => (visit b1 link, [searchAddress, link])
    | none => (b1, [searchAddress])
  let (header, content) := browserState b2 now
  (b2, pyStrip header ++ replySeparator ++ content, visited)

/-- `_visit_page(url)` as registered under the name `visit_page`. -/
def visitPageTool (visit : BrowserState → String → BrowserState)
    (b : BrowserState) (now : Int) (url : String) :
    BrowserState × String × List String :=
  let b1 := visit b url
  let (header, content) := browserState b1 now
  (b1, pyStrip header ++ replySeparator ++ content, [url])

/-- `_visit_page(url)` as registered, with an identical body, under the name
`download_file`. -/
def downloadFileTool (visit : BrowserState → String → BrowserState)
    (b : BrowserState) (now : Int) (url : String) :
    BrowserState × String × List String :=
  let b1 := visit b url
  let (header, content) := browserState b1 now
  (b1, pyStrip header ++ replySeparator ++ content, [url])

/-- `_find_on_page_ctrl_f(search_string)` after `browser.find_on_page` has
already updated the session; `find_result` is that call's return value, of
which only `None`-ness is inspected. -/
def findOnPageCtrlF (b : BrowserState) (now : Int) (find_result : Option Unit)
    (search_string : String) : String :=
  let (header, content) := browserState b now
  match find_result with
  | none =>
    pyStrip header ++ "\n=======================\nThe search string '"
      ++ search_string ++ "' was not found on this page."
  | some _ => pyStrip header ++ replySeparator ++ content

/-- `_find_next()` after `browser.find_next` has already updated the
session. -/
def findNextTool (b : BrowserState) (now : Int) (find_result : Option Unit) :
    String :=
  let (header, content) := browserState b now
  match find_result with
  | none =>
    pyStrip header ++ "\n=======================\nThe search string was not found on this page."
  | some _ => pyStrip header ++ replySeparator ++ content

/-! ## Summarization buffer (`_read_page_and_answer`)

Page text is modelled as `List Char` in this section, and `count_token` (from
`autogen.token_count_utils`, outside `src/`) as an abstract token-estimate
function on that text. -/

/-- The character class of the separator pattern `[\r\n]+`. -/
def isNLChar (c : Char) : Bool := c = '\r' || c = '\n'

/-- One pass of Python's `re.split(r"([\r\n]+)", s)`: `inSep` is the kind of
the chunk being accumulated, `acc` its characters in reverse.  The output
alternates text and separator chunks, keeps the separators, and starts and
ends with a (possibly empty) text chunk. -/
def reSplitGo : Bool → List Char → List Char → List (List Char)
  | inSep, acc, [] =>
    if inSep then [acc.reverse, []] else [acc.reverse]
  | inSep, acc, c :: cs =>
    if isNLChar c = inSep then reSplitGo inSep (c :: acc) cs
    else acc.reverse :: reSplitGo (isNLChar c) [c] cs

/-- `re.split(r"([\r\n]+)", content)`. -/
def reSplitNL (content : List Char) : List (List Char) :=
  reSplitGo false [] content

/-- The buffer-building loop of `_read_page_and_answer`: append the next
part unless its inclusion would leave fewer than 1024 tokens of headroom
under `limit`; `break` on the first such part. -/
def buildBufferGo (ct : List Char → Nat) (limit : Nat) :
    List Char → List (List Char) → List Char
  | buffer, [] => buffer
  | buffer, line :: rest =>
    if ct (buffer ++ line) + 1024 > limit then buffer
    else buildBufferGo ct limit (buffer ++ line) rest

/-- The summarization buffer before `strip()`: the loop run over the split
page content with the hard-coded `limit = 32000`. -/
def buildBuffer (ct : List Char → Nat) (content : List Char) : List Char :=
  buildBufferGo ct 32000 [] (reSplitNL content)

/-- Python `strip()` on the character-list representation. -/
def pyStripL (l : List Char) : List Char :=
  ((l.dropWhile isPyWhitespace).reverse.dropWhile isPyWhitespace).reverse

/-- How `_read_page_and_answer` ends: either it returns without invoking the
summarizer, or it invokes the summarizer once with the given user prompt and
returns the extracted completion. -/
inductive ReadPageOutcome where
  | noSummary (reply : String)
  | summarized (prompt : String)
deriving DecidableEq, Repr

/-- `_read_page_and_answer(question, url)` after any initial navigation:
builds the stripped buffer from the current page content and either
short-circuits on an empty buffer or calls the summarizer with the
question-dependent prompt. -/
def readPageAndAnswer (ct : List Char → Nat) (question : Option String)
    (content : List Char) : ReadPageOutcome :=
  let buffer := pyStripL (buildBuffer ct content)
  if buffer.length = 0 then ReadPageOutcome.noSummary "Nothing to summarize."
  else
    ReadPageOutcome.summarized
      (match question with
       | some q =>
         "Please summarize the following into one or two paragraphs with respect to '"
           ++ q ++ "':\n\n" ++ String.mk buffer
       | none =>
         "Please summarize the following into one or two paragraph:\n\n"
           ++ String.mk buffer)

/-! ## Reply resolution (`generate_surfer_reply`)

After the inner dispatch, `agent_reply` is the planning assistant's last
message (a dict, guarded against `None`) and `proxy_reply` is
`self._user_proxy.generate_reply(...)`, which in Python is `None`, a `str`,
or a dict.  Only the final resolution lines are modelled; `Except.error`
stands for the `TypeError` that `proxy_reply["content"]` raises when
`proxy_reply` is a non-empty `str`. -/

/-- A chat message dict; only its `"content"` value (a string or `None`)
is read here. -/
structure ChatMessage where
  content : Option String
deriving DecidableEq, Repr

/-- The Python value space of `proxy_reply`. -/
inductive PyReply where
  | none
  | str (s : String)
  | msg (m : ChatMessage)
deriving DecidableEq, Repr

/-- The `if proxy_reply == "":` resolution at the end of
`generate_surfer_reply`; the `Bool` is the constant `True` flag of the
returned pair. -/
def resolveSurferReply (agent_reply : Option ChatMessage) (proxy_reply : PyReply) :
    Except String (Bool × Option String) :=
  match proxy_reply with
  | PyReply.str s =>
    if s = "" then
      Except.ok (true, match agent_reply with
        | Option.none => Option.none
        | Option.some m => m.content)
    else
      Except.error "TypeError: string indices must be integers"
  | PyReply.none => Except.ok (true, Option.none)
  | PyReply.msg m => Except.ok (true, m.content)

/-! ## Theorems settling the claims -/

/-- Claim C1: at the end of `generate_surfer_reply`, an empty-default
execution reply resolves to the planning message's content (`None` when that
content is `None`); a non-default execution reply resolves to its own
content, and `None` at either stage propagates as `None` rather than being
coerced to an error. -/
theorem claim_C1_reply_resolution :
    ∀ (agent_reply : Option ChatMessage) (m : ChatMessage),
      resolveSurferReply agent_reply (PyReply.str "") =
        Except.ok (true, match agent_reply with
          | Option.none => Option.none
          | Option.some mm => mm.content)
      ∧ resolveSurferReply agent_reply (PyReply.msg m) = Except.ok (true, m.content)
      ∧ resolveSurferReply agent_reply PyReply.none = Except.ok (true, Option.none)
      ∧ resolveSurferReply Option.none (PyReply.str "") = Except.ok (true, Option.none)
      ∧ resolveSurferReply agent_reply (PyReply.msg { content := Option.none }) =
          Except.ok (true, Option.none) := by
  intro agent_reply m
  refine ⟨?_, rfl, rfl, rfl, rfl⟩
  cases agent_reply <;> rfl

/-- Claim C9: the handler registered as `visit_page` and the handler
registered as `download_file` are the same function of the session state and
url: same navigation effect, same returned string. -/
theorem claim_C9_visit_page_download_file_identical :
    ∀ (visit : BrowserState → String → BrowserState) (b : BrowserState)
      (now : Int) (url : String),
      visitPageTool visit b now url = downloadFileTool visit b now url := by
  intro visit b now url
  rfl

/-- Claim C8: on a failed search, `find_on_page_ctrl_f` still returns the
formatted header followed by a not-found notice embedding the literal search
string, while `find_next`'s not-found notice is a constant that omits it. -/
theorem claim_C8_find_not_found_notices :
    ∀ (b : BrowserState) (now : Int) (s : String),
      findOnPageCtrlF b now Option.none s =
        pyStrip (browserState b now).1 ++
          ("\n=======================\nThe search string '" ++
            (s ++ "' was not found on this page."))
      ∧ findNextTool b now Option.none =
          pyStrip (browserState b now).1 ++
            "\n=======================\nThe search string was not found on this page."
      ∧ (∃ u v : String, findOnPageCtrlF b now Option.none s = u ++ (s ++ v)) := by
  intro b now s
  refine ⟨?_, rfl, ?_⟩
  · show pyStrip (browserState b now).1 ++ "\n=======================\nThe search string '"
        ++ s ++ "' was not found on this page." = _
    rw [String.append_assoc, String.append_assoc]
  · refine ⟨pyStrip (browserState b now).1 ++ "\n=======================\nThe search string '",
      "' was not found on this page.", ?_⟩
    show pyStrip (browserState b now).1 ++ "\n=======================\nThe search string '"
        ++ s ++ "' was not found on this page." = _
    rw [String.append_assoc]

/-- Shared helper: in the Cosmos-then-disk tail of the factory, the Cosmos
branch is entered only for a provided, complete config, and the branch trace
is an ordered sublist of `["cosmos", "disk"]`. -/
theorem cosmosStage_trace (seed root : String) (cfg : Option CosmosDBConfig)
    (cosmosAvailable : Bool) :
    ("cosmos" ∈ (cacheFactoryCosmosStage seed root cfg cosmosAvailable).2 →
      ∃ c, cfg = some c ∧ c.complete = true)
    ∧ List.Sublist (cacheFactoryCosmosStage seed root cfg cosmosAvailable).2
        ["cosmos", "disk"] := by
  cases cfg with
  | none =>
    refine ⟨?_, ?_⟩ <;> simp [cacheFactoryCosmosStage]
  | some c =>
    by_cases h : (c.truthy && c.complete) = true
    · have hc : c.complete = true := (Bool.and_eq_true _ _ |>.mp h).2
      have ht : c.truthy = true := (Bool.and_eq_true _ _ |>.mp h).1
      cases hA : cosmosAvailable <;>
        refine ⟨?_, ?_⟩ <;> simp [cacheFactoryCosmosStage, h, hc, ht]
    · refine ⟨?_, ?_⟩ <;> simp [cacheFactoryCosmosStage, h]

/-- Claim C2 counterexample: with Redis and Cosmos both unavailable, the
factory's disk fallback is rooted at `"./" ++ cache_path_root ++ "/" ++ seed`,
which is not the string `cache_path_root ++ "/" ++ seed` the claim names. -/
theorem claim_C2_counterexample :
    (cache_factory "myseed" (some "redis://localhost:6379/0") ".cache"
        (some sampleCosmosConfig) false false).1 = CacheHandle.disk "./.cache/myseed"
    ∧ (cache_factory "myseed" (some "redis://localhost:6379/0") ".cache"
        (some sampleCosmosConfig) false false).1 ≠ CacheHandle.disk ".cache/myseed" := by
  constructor
  · rfl
  · decide

/-- Claim C2 (amended): with a non-empty Redis URL whose client is
unavailable and a complete Cosmos config whose client is unavailable, the
cascade enters all three branches in order and terminates in the disk
fallback rooted at `./{cache_path_root}/{seed}`. -/
theorem claim_C2_disk_fallback :
    ∀ (seed url root : String) (cfg : CosmosDBConfig),
      url ≠ "" → cfg.complete = true →
      cache_factory seed (some url) root (some cfg) false false =
        (CacheHandle.disk ("./" ++ root ++ "/" ++ seed), ["redis", "cosmos", "disk"]) := by
  intro seed url root cfg hurl hc
  have htruthy : cfg.truthy = true := by
    obtain ⟨a, bb, cc, o⟩ := cfg
    simp only [CosmosDBConfig.complete, Bool.and_eq_true] at hc
    simp [CosmosDBConfig.truthy, hc.1, hc.2]
  simp [cache_factory, redisUrlTruthy, hurl, cacheFactoryCosmosStage, htruthy, hc]

/-- Claim C2 witness: the amended fallback theorem at a concrete seed, URL,
root and complete config. -/
theorem claim_C2_disk_fallback_witness :
    ("redis://localhost:6379/0" ≠ "")
    ∧ sampleCosmosConfig.complete = true
    ∧ cache_factory "myseed" (some "redis://localhost:6379/0") ".cache"
        (some sampleCosmosConfig) false false =
        (CacheHandle.disk "./.cache/myseed", ["redis", "cosmos", "disk"]) :=
  ⟨by decide, by decide,
    claim_C2_disk_fallback "myseed" "redis://localhost:6379/0" ".cache"
      sampleCosmosConfig (by decide) (by decide)⟩

/-- Claim C3: the factory resolves Redis, then Cosmos, then disk (the branch
trace is an ordered sublist of `["redis", "cosmos", "disk"]`); with a
non-empty URL and an available Redis client only the Redis branch runs and a
Redis cache is returned; the Cosmos branch is entered only for a provided
config containing all three required fields. -/
theorem claim_C3_cache_order :
    ∀ (seed root url : String) (redis_url : Option String)
      (cfg : Option CosmosDBConfig) (redisAvailable cosmosAvailable : Bool),
      (url ≠ "" →
        cache_factory seed (some url) root cfg true cosmosAvailable =
          (CacheHandle.redis seed url, ["redis"]))
      ∧ ("cosmos" ∈ (cache_factory seed redis_url root cfg redisAvailable cosmosAvailable).2 →
          ∃ c, cfg = some c ∧ c.complete = true)
      ∧ List.Sublist
          (cache_factory seed redis_url root cfg redisAvailable cosmosAvailable).2
          ["redis", "cosmos", "disk"] := by
  intro seed root url redis_url cfg redisAvailable cosmosAvailable
  have hstage := cosmosStage_trace seed root cfg cosmosAvailable
  refine ⟨?_, ?_, ?_⟩
  · intro hurl
    simp [cache_factory, redisUrlTruthy, hurl]
  · intro hmem
    by_cases ht : redisUrlTruthy redis_url = true
    · cases hA : redisAvailable
      · have htr : (cache_factory seed redis_url root cfg redisAvailable cosmosAvailable).2 =
            "redis" :: (cacheFactoryCosmosStage seed root cfg cosmosAvailable).2 := by
          simp [cache_factory, ht, hA]
        rw [htr] at hmem
        rcases List.mem_cons.mp hmem with h | h
        · exact absurd h (by decide)
        · exact hstage.1 h
      · have htr : (cache_factory seed redis_url root cfg redisAvailable cosmosAvailable).2 =
            ["redis"] := by
          simp [cache_factory, ht, hA]
        rw [htr] at hmem
        exact absurd (List.mem_singleton.mp hmem) (by decide)
    · have htr : (cache_factory seed redis_url root cfg redisAvailable cosmosAvailable) =
          cacheFactoryCosmosStage seed root cfg cosmosAvailable := by
        simp [cache_factory, ht]
      rw [htr] at hmem
      exact hstage.1 hmem
  · by_cases ht : redisUrlTruthy redis_url = true
    · cases redisAvailable
      · have htr : (cache_factory seed redis_url root cfg false cosmosAvailable).2 =
            "redis" :: (cacheFactoryCosmosStage seed root cfg cosmosAvailable).2 := by
          simp [cache_factory, ht]
        rw [htr]
        exact List.Sublist.cons₂ "redis" (List.Sublist.trans hstage.2 (by decide))
      · have htr : (cache_factory seed redis_url root cfg true cosmosAvailable).2 =
            ["redis"] := by
          simp [cache_factory, ht]
        rw [htr]
        decide
    · have htr : (cache_factory seed redis_url root cfg redisAvailable cosmosAvailable) =
          cacheFactoryCosmosStage seed root cfg cosmosAvailable := by
        simp [cache_factory, ht]
      rw [htr]
      exact List.Sublist.trans hstage.2 (by decide)

/-- Claim C3 witness: the Redis-available conjunct at concrete inputs. -/
theorem claim_C3_cache_order_witness :
    ("redis://localhost:6379/0" ≠ "")
    ∧ cache_factory "myseed" (some "redis://localhost:6379/0") ".cache"
        Option.none true true =
      (CacheHandle.redis "myseed" "redis://localhost:6379/0", ["redis"]) :=
  ⟨by decide,
    (claim_C3_cache_order "myseed" ".cache" "redis://localhost:6379/0"
      (some "redis://localhost:6379/0") Option.none true true).1 (by decide)⟩

/-- Claim C6: with `summarizer_llm_config = None` and an `llm_config` dict
carrying a `config_list`, construction filters the list to the preferred
summarizer models; on zero matches the full list is kept, the warning is
logged, and the client is still constructed (soft degradation). -/
theorem claim_C6_summarizer_filter :
    ∀ (c : LLMConfig) (lst : List ConfigEntry),
      c.config_list = some lst →
      ((filter_config lst preferredSummarizerModels = [] →
          createSummarizerClient SummCfg.none (SummCfg.config c) =
            { cfg := SummCfg.config c, warned := true,
              client := Except.ok (some c) })
        ∧ (filter_config lst preferredSummarizerModels ≠ [] →
          createSummarizerClient SummCfg.none (SummCfg.config c) =
            { cfg := SummCfg.config
                { c with config_list := some (filter_config lst preferredSummarizerModels) },
              warned := false,
              client := Except.ok (some
                { c with config_list := some (filter_config lst preferredSummarizerModels) }) })) := by
  intro c lst hc
  constructor
  · intro hnil
    have hlen : (filter_config lst preferredSummarizerModels).length = 0 := by
      rw [hnil]; rfl
    simp [createSummarizerClient, hc, hlen]
  · intro hne
    have hlen : ¬(filter_config lst preferredSummarizerModels).length = 0 := by
      simpa [List.length_eq_zero] using hne
    simp [createSummarizerClient, hc, hlen]

/-- Claim C6 witness: a config list with no preferred model is kept whole,
warned about, and still yields a client. -/
theorem claim_C6_summarizer_filter_witness :
    (LLMConfig.config_list
        { config_list := some [{ model := "gpt-4", payload := "p" }], rest := "r" } =
      some [{ model := "gpt-4", payload := "p" }])
    ∧ (filter_config [{ model := "gpt-4", payload := "p" }] preferredSummarizerModels = [])
    ∧ createSummarizerClient SummCfg.none
        (SummCfg.config { config_list := some [{ model := "gpt-4", payload := "p" }], rest := "r" }) =
      { cfg := SummCfg.config { config_list := some [{ model := "gpt-4", payload := "p" }], rest := "r" },
        warned := true,
        client := Except.ok (some
          { config_list := some [{ model := "gpt-4", payload := "p" }], rest := "r" }) } :=
  ⟨rfl, by decide,
    (claim_C6_summarizer_filter
      { config_list := some [{ model := "gpt-4", payload := "p" }], rest := "r" }
      [{ model := "gpt-4", payload := "p" }] rfl).1 (by decide)⟩

/-- Claim C10 counterexample: passing `summarizer_llm_config = None` together
with `llm_config = False` also yields an agent with no summarization client,
so `summarizer_llm_config = False` is not the only way. -/
theorem claim_C10_counterexample :
    (createSummarizerClient SummCfg.none SummCfg.disabled).client =
      Except.ok Option.none
    ∧ SummCfg.none ≠ SummCfg.disabled := by
  exact ⟨rfl, by decide⟩

/-- Claim C10 (amended): with both configs `None` the resolved summarizer
config is `None` yet still reaches client construction, which raises
(`OpenAIWrapper(**None)` is a `TypeError`); the client is absent exactly when
`summarizer_llm_config = False` is passed, or `summarizer_llm_config = None`
is passed with `llm_config = False`. -/
theorem claim_C10_none_config_raises :
    ∀ (s l : SummCfg),
      ((createSummarizerClient SummCfg.none SummCfg.none).cfg = SummCfg.none
        ∧ ∃ e, (createSummarizerClient SummCfg.none SummCfg.none).client = Except.error e)
      ∧ ((createSummarizerClient s l).client = Except.ok Option.none ↔
          s = SummCfg.disabled ∨ (s = SummCfg.none ∧ l = SummCfg.disabled)) := by
  intro s l
  refine ⟨⟨rfl, ⟨_, rfl⟩⟩, ?_⟩
  cases s with
  | none =>
    cases l with
    | none => simp [createSummarizerClient]
    | disabled => simp [createSummarizerClient]
    | config c =>
      cases hcl : c.config_list with
      | none => simp [createSummarizerClient, hcl]
      | some lst =>
        by_cases hlen : (filter_config lst preferredSummarizerModels).length = 0 <;>
          simp [createSummarizerClient, hcl, hlen]
  | disabled => simp [createSummarizerClient]
  | config c => simp [createSummarizerClient]

/-- Every link produced by the literal-`(http` continuation starts with
`"http"`. -/
theorem tryParen_http (cs : List Char) (link : String) (h : tryParen cs = some link) :
    ∃ u, link = "http" ++ u := by
  unfold tryParen at h
  split at h
  · rcases Option.map_eq_some'.mp h with ⟨u, _, hu⟩
    exact ⟨u, hu.symm⟩
  · exact absurd h (by simp)

/-- Every link produced by the bracket scan starts with `"http"`. -/
theorem tryBracket_http (cs : List Char) (link : String) (h : tryBracket cs = some link) :
    ∃ u, link = "http" ++ u := by
  induction cs with
  | nil => exact absurd h (by simp [tryBracket])
  | cons c rest ih =>
    rw [tryBracket] at h
    by_cases h1 : c = '\n'
    · simp [h1] at h
    · by_cases h2 : c = ']'
      · simp only [h1, h2, if_false, if_true, if_neg, if_pos] at h
        cases hp : tryParen rest with
        | some l =>
          rw [hp] at h
          exact (Option.some.injEq _ _ ▸ h) ▸ tryParen_http rest l hp
        | none =>
          rw [hp] at h
          exact ih h
      · simp only [h1, h2, if_false] at h
        exact ih h

/-- Every link extracted by the markdown-link search starts with `"http"`. -/
theorem firstMarkdownLinkAux_http (cs : List Char) (link : String)
    (h : firstMarkdownLinkAux cs = some link) : ∃ u, link = "http" ++ u := by
  induction cs with
  | nil => exact absurd h (by simp [firstMarkdownLinkAux])
  | cons c rest ih =>
    rw [firstMarkdownLinkAux] at h
    by_cases h1 : c = '['
    · simp only [h1, if_pos, if_true] at h
      cases hb : tryBracket rest with
      | some l =>
        rw [hb] at h
        exact (Option.some.injEq _ _ ▸ h) ▸ tryBracket_http rest l hb
      | none =>
        rw [hb] at h
        exact ih h
    · simp only [h1, if_false] at h
      exact ih h

/-- Claim C7: `navigational_search` first visits the synthesized search
address, then visits the first markdown link target of the resulting page
content when one exists (a target that always starts with `http`), and
otherwise stays on the search results page. -/
theorem claim_C7_navigational_search :
    ∀ (visit : BrowserState → String → BrowserState) (b : BrowserState)
      (now : Int) (q : String),
      (∀ link, firstMarkdownLink (visit b ("bing: " ++ q)).page_content = some link →
        navigationalSearch visit b now q =
          (visit (visit b ("bing: " ++ q)) link,
            pyStrip (browserState (visit (visit b ("bing: " ++ q)) link) now).1
              ++ replySeparator ++ (visit (visit b ("bing: " ++ q)) link).viewport,
            ["bing: " ++ q, link]))
      ∧ (firstMarkdownLink (visit b ("bing: " ++ q)).page_content = Option.none →
        navigationalSearch visit b now q =
          (visit b ("bing: " ++ q),
            pyStrip (browserState (visit b ("bing: " ++ q)) now).1
              ++ replySeparator ++ (visit b ("bing: " ++ q)).viewport,
            ["bing: " ++ q]))
      ∧ (∀ link, firstMarkdownLink (visit b ("bing: " ++ q)).page_content = some link →
          ∃ u, link = "http" ++ u) := by
  intro visit b now q
  refine ⟨?_, ?_, ?_⟩
  · intro link h
    simp only [navigationalSearch, h]
    rfl
  · intro h
    simp only [navigationalSearch, h]
    rfl
  · intro link h
    exact firstMarkdownLinkAux_http _ link h

/-- A session stub whose pages all carry one markdown link. -/
def constVisitState : BrowserState :=
  { address := "about:blank", page_title := Option.none, viewport_current_page := 0,
    viewport_pages := ["page one"], history := [], viewport := "page one",
    page_content := "Results: [Example](http://example.com/) more" }

/-- A visit transition for the stub session: navigation only changes the
address. -/
def constVisit : BrowserState → String → BrowserState :=
  fun _ target => { constVisitState with address := target }

/-- Claim C7 witness: on the stub session, the search result page's first
markdown link is followed. -/
theorem claim_C7_navigational_search_witness :
    firstMarkdownLink (constVisit constVisitState ("bing: " ++ "wiki")).page_content =
      some "http://example.com/"
    ∧ navigationalSearch constVisit constVisitState 0 "wiki" =
      (constVisit (constVisit constVisitState ("bing: " ++ "wiki")) "http://example.com/",
        pyStrip (browserState
            (constVisit (constVisit constVisitState ("bing: " ++ "wiki")) "http://example.com/") 0).1
          ++ replySeparator
          ++ (constVisit (constVisit constVisitState ("bing: " ++ "wiki")) "http://example.com/").viewport,
        ["bing: " ++ "wiki", "http://example.com/"]) :=
  ⟨by decide,
    (claim_C7_navigational_search constVisit constVisitState 0 "wiki").1
      "http://example.com/" (by decide)⟩

/-- The descending index scan over the first `i + 1` history entries is the
first match of a backward traversal of those entries. -/
theorem scanHistoryFrom_eq (history : List (String × Int)) (address : String) :
    ∀ i, scanHistoryFrom history address i =
      (((history.take (i + 1)).reverse.find? (fun e => e.1 == address)).map Prod.snd) := by
  intro i
  induction i with
  | zero =>
    cases history with
    | nil => rfl
    | cons e t =>
      by_cases he : e.1 = address
      · have hbe : (e.1 == address) = true := beq_iff_eq.mpr he
        simp [scanHistoryFrom, he, hbe, List.find?]
      · have hbe : (e.1 == address) = false := beq_eq_false_iff_ne.mpr he
        simp [scanHistoryFrom, he, hbe, List.find?]
  | succ i ih =>
    rw [scanHistoryFrom]
    cases hget : history.get? (i + 1) with
    | some e =>
      have htake : history.take (i + 2) = history.take (i + 1) ++ [e] := by
        rw [List.take_succ]
        rw [List.get?_eq_getElem?] at hget
        rw [hget]
        rfl
      rw [htake, List.reverse_append]
      by_cases he : e.1 = address
      · have hbe : (e.1 == address) = true := beq_iff_eq.mpr he
        simp [he, hbe, List.find?, ih]
      · have hbe : (e.1 == address) = false := beq_eq_false_iff_ne.mpr he
        simp [he, hbe, List.find?, ih]
    | none =>
      have htake : history.take (i + 2) = history.take (i + 1) := by
        rw [List.take_succ]
        rw [List.get?_eq_getElem?] at hget
        rw [hget]
        simp
      rw [htake, ih]

/-- `findPrevVisit` is the most recent prior visit to the address: the first
match of a backward traversal of all history entries but the last. -/
theorem findPrevVisit_eq_find (history : List (String × Int)) (address : String) :
    findPrevVisit history address =
      ((history.dropLast.reverse.find? (fun e => e.1 == address)).map Prod.snd) := by
  unfold findPrevVisit
  by_cases h2 : history.length < 2
  · rw [if_pos h2]
    cases history with
    | nil => rfl
    | cons e t =>
      cases t with
      | nil => rfl
      | cons f u => simp at h2; omega
  · rw [if_neg h2]
    rw [scanHistoryFrom_eq]
    have : history.length - 2 + 1 = history.length - 1 := by omega
    rw [this, ← List.dropLast_eq_take]

/-- Claim C5: the header of every tool reply decomposes into the address
line, the optional title line, the previously-visited line — present exactly
when the backward scan over all but the last history entry finds the current
address, with the elapsed seconds since the most recent such visit — and the
viewport line `Showing page <i+1> of <total>`. -/
theorem claim_C5_browser_header :
    ∀ (b : BrowserState) (now : Int),
      (browserState b now).1 =
        "Address: " ++ b.address ++ "\n"
          ++ (match b.page_title with
              | some t => "Title: " ++ t ++ "\n"
              | Option.none => "")
          ++ (match findPrevVisit b.history b.address with
              | some ts =>
                "You previously visited this page " ++ toString (now - ts)
                  ++ " seconds ago.\n"
              | Option.none => "")
          ++ "Viewport position: Showing page " ++ toString (b.viewport_current_page + 1)
          ++ " of " ++ toString b.viewport_pages.length ++ ".\n"
      ∧ findPrevVisit b.history b.address =
          ((b.history.dropLast.reverse.find? (fun e => e.1 == b.address)).map Prod.snd) := by
  intro b now
  refine ⟨?_, findPrevVisit_eq_find b.history b.address⟩
  cases ht : b.page_title <;> cases hp : findPrevVisit b.history b.address <;>
    · apply String.ext
      simp [browserState, ht, hp, String.data_append, List.append_assoc]

/-- The separator-keeping split loses nothing: flattening restores the
accumulated chunk plus the unread input. -/
theorem reSplitGo_flatten :
    ∀ (cs : List Char) (inSep : Bool) (acc : List Char),
      (reSplitGo inSep acc cs).flatten = acc.reverse ++ cs := by
  intro cs
  induction cs with
  | nil =>
    intro inSep acc
    cases inSep <;> simp [reSplitGo]
  | cons c cs ih =>
    intro inSep acc
    by_cases h : isNLChar c = inSep
    · simp [reSplitGo, h, ih]
    · simp [reSplitGo, h, ih]

/-- Flattening the separator-keeping split restores the page content. -/
theorem reSplitNL_flatten (content : List Char) :
    (reSplitNL content).flatten = content := by
  simpa using reSplitGo_flatten content false []

/-- Characterization of the buffer loop: it appends the flattening of some
prefix of the parts; either all parts were consumed or the first omitted
part failed the headroom check; and every appended part passed it. -/
theorem buildBufferGo_spec (ct : List Char → Nat) (limit : Nat) :
    ∀ (parts : List (List Char)) (buffer : List Char),
      ∃ k, k ≤ parts.length
        ∧ buildBufferGo ct limit buffer parts = buffer ++ (parts.take k).flatten
        ∧ (k = parts.length ∨
            (k < parts.length ∧
              limit < ct ((buffer ++ (parts.take k).flatten) ++ parts.getD k []) + 1024))
        ∧ (∀ j, j < k → ct (buffer ++ (parts.take (j + 1)).flatten) + 1024 ≤ limit) := by
  intro parts
  induction parts with
  | nil =>
    intro buffer
    refine ⟨0, by simp, by simp [buildBufferGo], Or.inl rfl, ?_⟩
    intro j hj
    omega
  | cons line rest ih =>
    intro buffer
    by_cases h : limit < ct (buffer ++ line) + 1024
    · refine ⟨0, by simp, ?_, ?_, ?_⟩
      · simp [buildBufferGo, h]
      · right
        refine ⟨by simp, ?_⟩
        simpa using h
      · intro j hj
        omega
    · obtain ⟨k, hk, heq, hbreak, hchecks⟩ := ih (buffer ++ line)
      refine ⟨k + 1, by simpa using Nat.succ_le_succ hk, ?_, ?_, ?_⟩
      · rw [buildBufferGo]
        rw [if_neg h, heq, List.take_succ_cons, List.flatten_cons, List.append_assoc]
      · rcases hbreak with hb | ⟨hlt, hb⟩
        · left
          simp [hb]
        · right
          refine ⟨by simpa using Nat.succ_lt_succ hlt, ?_⟩
          simpa [List.take_succ_cons, List.append_assoc] using hb
      · intro j hj
        cases j with
        | zero =>
          simpa using Nat.le_of_not_lt h
        | succ j =>
          have hc := hchecks j (by omega)
          simpa [List.take_succ_cons, List.append_assoc] using hc

/-- The summarization buffer is the flattening of a prefix of the split
parts (a line boundary), and when non-empty it keeps 1024 tokens of
headroom under the 32000 ceiling. -/
theorem buildBuffer_boundary (ct : List Char → Nat) (content : List Char) :
    ∃ k, buildBuffer ct content = ((reSplitNL content).take k).flatten
      ∧ (buildBuffer ct content = [] ∨ ct (buildBuffer ct content) + 1024 ≤ 32000) := by
  obtain ⟨k, hk, heq, hbreak, hchecks⟩ := buildBufferGo_spec ct 32000 (reSplitNL content) []
  have hbuf : buildBuffer ct content = ((reSplitNL content).take k).flatten := by
    simpa [buildBuffer] using heq
  refine ⟨k, hbuf, ?_⟩
  cases k with
  | zero =>
    left
    simp [hbuf]
  | succ j =>
    right
    have hc := hchecks j (by omega)
    rw [hbuf]
    simpa using hc

/-- When the whole page content fits under the threshold and the token
estimate is monotone under extension, nothing is truncated. -/
theorem buildBuffer_complete (ct : List Char → Nat) (content : List Char)
    (hmono : ∀ s t, ct s ≤ ct (s ++ t))
    (hct : ct content + 1024 ≤ 32000) : buildBuffer ct content = content := by
  obtain ⟨k, hk, heq, hbreak, hchecks⟩ := buildBufferGo_spec ct 32000 (reSplitNL content) []
  have hbuf : buildBuffer ct content = ((reSplitNL content).take k).flatten := by
    simpa [buildBuffer] using heq
  rcases hbreak with hb | ⟨hlt, hb⟩
  · rw [hbuf, hb, List.take_length, reSplitNL_flatten]
  · exfalso
    have htake1 : (((reSplitNL content).take (k + 1)).flatten : List Char) =
        ((reSplitNL content).take k).flatten ++ (reSplitNL content).getD k [] := by
      rw [List.take_succ, List.flatten_append]
      congr 1
      simp [List.getElem?_eq_getElem hlt]
    have hsplit : (((reSplitNL content).take (k + 1)).flatten : List Char) ++
        ((reSplitNL content).drop (k + 1)).flatten = content := by
      rw [← List.flatten_append, List.take_append_drop, reSplitNL_flatten]
    have hlift : ct (((reSplitNL content).take (k + 1)).flatten) ≤ ct content := by
      calc ct (((reSplitNL content).take (k + 1)).flatten)
          ≤ ct ((((reSplitNL content).take (k + 1)).flatten)
              ++ ((reSplitNL content).drop (k + 1)).flatten) := hmono _ _
        _ = ct content := by rw [hsplit]
    rw [htake1] at hlift
    simp only [List.nil_append] at hb
    omega

/-- Above the threshold the buffer stops strictly before the end of a
non-empty page content, on a line boundary. -/
theorem buildBuffer_strict (ct : List Char → Nat) (content : List Char)
    (hne : content ≠ []) (hct : 32000 < ct content + 1024) :
    buildBuffer ct content ≠ content
      ∧ ∃ t, content = buildBuffer ct content ++ t := by
  obtain ⟨k, hk, heq, hbreak, hchecks⟩ := buildBufferGo_spec ct 32000 (reSplitNL content) []
  have hbuf : buildBuffer ct content = ((reSplitNL content).take k).flatten := by
    simpa [buildBuffer] using heq
  have hpre : content = buildBuffer ct content ++ ((reSplitNL content).drop k).flatten := by
    rw [hbuf, ← List.flatten_append, List.take_append_drop, reSplitNL_flatten]
  refine ⟨?_, ⟨((reSplitNL content).drop k).flatten, hpre⟩⟩
  intro hfull
  cases k with
  | zero =>
    rw [hbuf] at hfull
    have hcnil : content = [] := by simpa using hfull.symm
    exact hne hcnil
  | succ j =>
    have hc := hchecks j (by omega)
    simp only [List.nil_append] at hc
    rw [← hbuf, hfull] at hc
    omega

/-- Claim C4: the summarization buffer of `_read_page_and_answer` is built
in line order and stops before the cumulative token estimate plus 1024
tokens of headroom would exceed the 32000 ceiling; content wholly below the
threshold is kept untruncated (for a token estimate monotone under
extension); content above it yields a strict prefix ending at a line
boundary; and an empty stripped buffer short-circuits to
`"Nothing to summarize."` without invoking the summarizer. -/
theorem claim_C4_read_page_buffer :
    ∀ (ct : List Char → Nat) (content : List Char) (question : Option String),
      (∃ k, buildBuffer ct content = ((reSplitNL content).take k).flatten)
      ∧ (buildBuffer ct content = [] ∨ ct (buildBuffer ct content) + 1024 ≤ 32000)
      ∧ ((∀ s t, ct s ≤ ct (s ++ t)) → ct content + 1024 ≤ 32000 →
          buildBuffer ct content = content)
      ∧ (content ≠ [] → 32000 < ct content + 1024 →
          buildBuffer ct content ≠ content
            ∧ ∃ t, content = buildBuffer ct content ++ t)
      ∧ (pyStripL (buildBuffer ct content) = [] →
          readPageAndAnswer ct question content =
            ReadPageOutcome.noSummary "Nothing to summarize.") := by
  intro ct content question
  obtain ⟨k, hb1, hb2⟩ := buildBuffer_boundary ct content
  refine ⟨⟨k, hb1⟩, hb2, ?_, ?_, ?_⟩
  · intro hmono hct
    exact buildBuffer_complete ct content hmono hct
  · intro hne hct
    exact buildBuffer_strict ct content hne hct
  · intro hempty
    simp [readPageAndAnswer, hempty]

/-- Claim C4 witness: with the length estimate (monotone) and a short
two-line page the buffer keeps the whole content; a whitespace-only page
short-circuits. -/
theorem claim_C4_read_page_buffer_witness :
    ((fun l => List.length l) "hello\n".data + 1024 ≤ 32000)
    ∧ buildBuffer (fun l => List.length l) "hello\nworld".data = "hello\nworld".data
    ∧ readPageAndAnswer (fun l => List.length l) Option.none " \n ".data =
        ReadPageOutcome.noSummary "Nothing to summarize." :=
  ⟨by decide,
    (claim_C4_read_page_buffer (fun l => List.length l) "hello\nworld".data
        Option.none).2.2.1
      (fun s t => by simp)
      (by decide),
    (claim_C4_read_page_buffer (fun l => List.length l) " \n ".data
        Option.none).2.2.2.2
      (by decide)⟩

end Autogen
